import Mathlib

/-!
# Verification of the saf-stig-generator core against its specification

This file gives a shallow embedding, in Lean 4, of the algorithmic core of the
`saf-stig-generator` repository:

* the InSpec runner tool (`services/inspect_runner/tool.py`, `run_inspec_tests`),
* the QA repair loop (`saf_stig_generator/qa.py`,
  `QualityAssuranceAgent._run_async_impl`),
* the InSpec control parsers (`services/memory/tool.py`,
  `_parse_inspec_control` and `parse_inspec_controls_from_file`),
* the memory-store operations (`services/memory/tool.py`,
  `manage_baseline_memory`, `add_to_memory`, `query_memory`), over an explicit
  model of the ChromaDB collection and of the scanned filesystem.

Pure Python functions become Lean functions; the regular-expression searches
used by the parsers are embedded as character-level scanners implementing the
exact patterns from the source (including lazy-quantifier backtracking order);
external collaborators (the `inspec` subprocess, the ChromaDB client) are
modelled as explicit inputs or as small state-transformer functions whose
behaviour follows their documented contracts, noted in the doc comments.
-/

set_option autoImplicit false
set_option maxRecDepth 4000

namespace SafStig

/-! ## Python-style helpers -/

/-- Python truthiness of an optional string argument (`None` and `""` are falsy). -/
def pyTruthyStr : Option String → Bool
  | none => false
  | some s => !(s = "")

/-- Python `\s` for the ASCII range: space, tab, newline, carriage return,
vertical tab, form feed. -/
def isPySpace (c : Char) : Bool :=
  c = ' ' || c = '\t' || c = '\n' || c = '\r' || c = '\x0b' || c = '\x0c'

/-- A quote character, i.e. the regex character class consisting of a single
quote or a double quote. -/
def isQuote (c : Char) : Bool :=
  c = '\'' || c = '"'

/-- Python `str.strip()`: remove leading and trailing whitespace. -/
def pyStrip (cs : List Char) : List Char :=
  ((cs.dropWhile isPySpace).reverse.dropWhile isPySpace).reverse

/-! ## The InSpec runner tool

`services/inspect_runner/tool.py` builds the command
`inspec exec <profile> --target <target> --reporter json` and runs it through
`subprocess.run(..., capture_output=True, text=True, check=True, timeout=600)`.
With `check=True`, a completed process with a nonzero exit code raises
`subprocess.CalledProcessError`; `FileNotFoundError` is raised when the
`inspec` binary is missing; every other exception (including
`subprocess.TimeoutExpired` and JSON decoding errors) falls into the generic
`except Exception` branch. -/

/-- The part of an InSpec JSON report the spec's `TestResult` cares about: the
individual failing assertions, each a `(code_desc, message)` pair. -/
structure InspecReport where
  failures : List (String × String)
  deriving DecidableEq, Repr

/-- Outcome of the `subprocess.run` call made by `run_inspec_tests`, as seen by
the surrounding `try`/`except`.  `completed rc report stderr` is a process that
ran to completion with exit code `rc`; `report` is the successfully JSON-decoded
last line of stdout, or `none` when stdout held no valid report.  Per InSpec's
documented exit codes, a run in which the profile executed and some test
assertions failed completes with exit code 100 and the JSON report on stdout. -/
inductive SubprocOutcome where
  | completed (returncode : Nat) (stdoutReport : Option InspecReport) (stderr : String)
  | toolNotFound
  | otherError (msg : String)
  deriving DecidableEq, Repr

/-- The JSON object returned (as a string) by `run_inspec_tests`: either
`{"status": "success", "data": ...}` or
`{"status": "failure", "message": ..., ["stderr": ...]}`. -/
inductive RunnerResult where
  | success (data : InspecReport)
  | failure (message : String) (stderr : Option String)
  deriving DecidableEq, Repr

/-- The function `run_inspec_tests` from `services/inspect_runner/tool.py` (lines 45-77).
Because the subprocess is run with `check=True`, any nonzero exit code —
including InSpec's exit code 100 for "tests ran and some failed" — lands in the
`subprocess.CalledProcessError` handler, which returns
`{"status": "failure", "message": "InSpec execution failed. Stderr:\n...",
"stderr": ...}` and discards stdout (the JSON report).  Only exit code 0
reaches the success path, which parses the last stdout line as JSON. -/
def run_inspec_tests : SubprocOutcome → RunnerResult
  | .completed rc rep stderr =>
      if rc = 0 then
        match rep with
        | some r => .success r
        | none =>
            .failure "An unexpected error occurred during InSpec execution: JSON decode error" none
      else
        .failure ("InSpec execution failed. Stderr:\n" ++ stderr) (some stderr)
  | .toolNotFound =>
      .failure "'inspec' command not found. This tool should be run in an environment with Chef InSpec installed." none
  | .otherError m =>
      .failure ("An unexpected error occurred during InSpec execution: " ++ m) none

/-- C1 (code bug): on a run in which the verification code executed and
ordinary test assertions failed — InSpec completes with exit code 100 and the
JSON report (with populated failing assertions) on stdout — `run_inspec_tests`
does not return a structured result carrying the failures: because of
`check=True` the run lands in the `CalledProcessError` handler, which returns
the same `{"status": "failure"}` shape used for environment faults, built only
from stderr, and discards the report.  No `RunnerResult.success` (the only
constructor carrying report data) is produced. -/
theorem c1_run_inspec_tests_discards_failing_report :
    run_inspec_tests
        (.completed 100
          (some ⟨[("File /etc/login.defs mode should eq 0644",
                   "expected mode 0644 to be <= 0640")]⟩) "") =
      .failure "InSpec execution failed. Stderr:\n" (some "") ∧
    ∀ r : InspecReport,
      run_inspec_tests
          (.completed 100
            (some ⟨[("File /etc/login.defs mode should eq 0644",
                     "expected mode 0644 to be <= 0640")]⟩) "") ≠
        .success r := by
  constructor
  · rfl
  · intro r h
    exact RunnerResult.noConfusion h

/-! ## The QA repair loop

`saf_stig_generator/qa.py`, `QualityAssuranceAgent._run_async_impl`
(lines 106-144).  The method reads `baseline_path` from session state; when it
is missing (falsy) it yields a single error event and stops.  Otherwise it runs

```
max_iterations = 3
for iteration in range(max_iterations):
    test_passed = await self._test_baseline(baseline_path, target_info, ctx)
    if test_passed:
        yield Event(..., content={"status": "success", "message": "All tests passed!"})
        return
    if iteration < max_iterations - 1:
        await self._remediate_failures(baseline_path, ctx)
    else:
        yield Event(..., content={"status": "failed", "message": "Max iterations reached"})
```

The outcome of each `_test_baseline` call (which consults session state the
remediation step may change) is modelled as a function of the iteration index,
and the loop additionally records the observable trace of adapter invocations
(test calls with their boolean outcome, and remediation calls), so that counts
of test invocations, recorded failures ("history") and generation calls can be
stated. -/

/-- One adapter invocation made by the QA loop: a `_test_baseline` call with
its boolean outcome, or a `_remediate_failures` (generation) call. -/
inductive QACall where
  | test (passed : Bool)
  | remediate
  deriving DecidableEq, Repr

/-- An event yielded by the agent: the author name and the `content` dict. -/
structure QAEvent where
  author : String
  content : List (String × String)
  deriving DecidableEq, Repr

/-- The observable outcome of one `_run_async_impl` invocation: the events it
yielded, the trace of adapter calls it performed, and the value of the loop
variable `iteration` at the point the terminal event was yielded. -/
structure QAResult where
  events : List QAEvent
  trace : List QACall
  exitIteration : Option Nat
  deriving DecidableEq, Repr

/-- The success event yielded by `_run_async_impl` when a test run passes. -/
def successEvent (name : String) : QAEvent :=
  ⟨name, [("status", "success"), ("message", "All tests passed!")]⟩

/-- The failure event yielded by `_run_async_impl` when the last allowed test
run fails. -/
def failedEvent (name : String) : QAEvent :=
  ⟨name, [("status", "failed"), ("message", "Max iterations reached")]⟩

/-- The error event yielded when no baseline path is provided. -/
def noBaselineEvent (name : String) : QAEvent :=
  ⟨name, [("error", "No baseline path provided to QA Agent.")]⟩

/-- The body of the `for iteration in range(max_iterations)` loop of
`_run_async_impl`, starting at loop index `i` with `fuel` iterations left
(`fuel = maxIter - i`).  Note that the `else` branch (yield the failed event)
is only reachable at the last loop index, so the loop ends right after it,
exactly as in the Python `for` loop. -/
def qaLoopAux (name : String) (outcomes : Nat → Bool) (maxIter : Nat) :
    Nat → Nat → QAResult
  | _, 0 => ⟨[], [], none⟩
  | i, fuel + 1 =>
      if outcomes i then
        ⟨[successEvent name], [.test true], some i⟩
      else if i < maxIter - 1 then
        let r := qaLoopAux name outcomes maxIter (i + 1) fuel
        ⟨r.events, .test false :: .remediate :: r.trace, r.exitIteration⟩
      else
        ⟨[failedEvent name], [.test false], some i⟩

/-- The method `QualityAssuranceAgent._run_async_impl`, with the retry budget
`maxIterations` as an explicit parameter (the source hard-codes
`max_iterations = 3`, see `qaMaxIterations`). -/
def run_async_impl (name : String) (baselinePath : Option String)
    (outcomes : Nat → Bool) (maxIterations : Nat) : QAResult :=
  if pyTruthyStr baselinePath then
    qaLoopAux name outcomes maxIterations 0 maxIterations
  else
    ⟨[noBaselineEvent name], [], none⟩

/-- The retry budget set by `qa.py` line 124: `max_iterations = 3`. -/
def qaMaxIterations : Nat := 3

/-- Number of `_test_baseline` invocations in a trace. -/
def testCount (t : List QACall) : Nat :=
  (t.filter fun c => match c with | .test _ => true | .remediate => false).length

/-- Number of failing test results in a trace — the entries the spec's
`RepairSession.history` records. -/
def historyCount (t : List QACall) : Nat :=
  (t.filter fun c => match c with | .test p => !p | .remediate => false).length

/-- Number of `_remediate_failures` (generation) invocations in a trace. -/
def remediationCount (t : List QACall) : Nat :=
  (t.filter fun c => match c with | .test _ => false | .remediate => true).length

theorem testCount_cons_test (p : Bool) (t : List QACall) :
    testCount (.test p :: t) = testCount t + 1 := rfl

theorem testCount_cons_remediate (t : List QACall) :
    testCount (.remediate :: t) = testCount t := rfl

/-- Loop invariant for `qaLoopAux`: starting at index `i` with `fuel` rounds
left, the loop yields exactly one terminal event (success or failure), performs
between 1 and `fuel` test invocations, and performs fewer than `fuel` only when
its last test invocation passed (in which case the terminal event is the
success event). -/
theorem qaLoopAux_spec (name : String) (outcomes : Nat → Bool) (maxIter : Nat) :
    ∀ fuel i, i + fuel = maxIter → 1 ≤ fuel →
      ((qaLoopAux name outcomes maxIter i fuel).events = [successEvent name] ∨
        (qaLoopAux name outcomes maxIter i fuel).events = [failedEvent name]) ∧
      1 ≤ testCount (qaLoopAux name outcomes maxIter i fuel).trace ∧
      testCount (qaLoopAux name outcomes maxIter i fuel).trace ≤ fuel ∧
      (testCount (qaLoopAux name outcomes maxIter i fuel).trace < fuel →
        (qaLoopAux name outcomes maxIter i fuel).events = [successEvent name] ∧
        outcomes (i + testCount (qaLoopAux name outcomes maxIter i fuel).trace - 1) = true) := by
  intro fuel
  induction fuel with
  | zero => intro i _ h1; exact absurd h1 (by omega)
  | succ f ih =>
      intro i hsum _
      by_cases hp : outcomes i = true
      · refine ⟨?_, ?_, ?_, ?_⟩ <;> simp [qaLoopAux, hp, testCount]
      · by_cases hlt : i < maxIter - 1
        · have hf : 1 ≤ f := by omega
          have hih := ih (i + 1) (by omega) hf
          have hrw : qaLoopAux name outcomes maxIter i (f + 1) =
              ⟨(qaLoopAux name outcomes maxIter (i + 1) f).events,
                .test false :: .remediate ::
                  (qaLoopAux name outcomes maxIter (i + 1) f).trace,
                (qaLoopAux name outcomes maxIter (i + 1) f).exitIteration⟩ := by
            simp [qaLoopAux, hp, hlt]
          rw [hrw]
          obtain ⟨hterm, hlo, hhi, hfew⟩ := hih
          refine ⟨hterm, ?_, ?_, ?_⟩
          · simp [testCount_cons_test, testCount_cons_remediate]
          · simp only [testCount_cons_test, testCount_cons_remediate]
            omega
          · intro hless
            simp only [testCount_cons_test, testCount_cons_remediate] at hless ⊢
            have h2 := hfew (by omega)
            refine ⟨h2.1, ?_⟩
            have hidx : i + (testCount (qaLoopAux name outcomes maxIter (i + 1) f).trace + 1) - 1 =
                i + 1 + testCount (qaLoopAux name outcomes maxIter (i + 1) f).trace - 1 := by
              omega
            rw [hidx]
            exact h2.2
        · have hf0 : f = 0 := by omega
          subst hf0
          refine ⟨?_, ?_, ?_, ?_⟩ <;> simp [qaLoopAux, hp, hlt, testCount]

/-- C2 (confirmed): for every Control (i.e. any truthy baseline path, any
sequence of test outcomes) and every positive retry budget, the QA loop of
`_run_async_impl` yields a terminal success or failure event after at most
`maxIter` test invocations, and performs fewer than `maxIter` test invocations
only when its last test invocation returned PASSED (in which case the terminal
event is the success event).  The source hard-codes the budget to
`qaMaxIterations = 3`; the loop structure is parametric in it. -/
theorem c2_qa_loop_terminates_within_budget (name : String) (bp : Option String)
    (outcomes : Nat → Bool) (maxIter : Nat)
    (hbp : pyTruthyStr bp = true) (hpos : 1 ≤ maxIter) :
    ((run_async_impl name bp outcomes maxIter).events = [successEvent name] ∨
      (run_async_impl name bp outcomes maxIter).events = [failedEvent name]) ∧
    testCount (run_async_impl name bp outcomes maxIter).trace ≤ maxIter ∧
    (testCount (run_async_impl name bp outcomes maxIter).trace < maxIter →
      (run_async_impl name bp outcomes maxIter).events = [successEvent name] ∧
      outcomes (testCount (run_async_impl name bp outcomes maxIter).trace - 1) = true) := by
  have h := qaLoopAux_spec name outcomes maxIter maxIter 0 (by omega) hpos
  simp only [run_async_impl, hbp, if_pos]
  obtain ⟨hterm, _, hhi, hfew⟩ := h
  refine ⟨hterm, hhi, ?_⟩
  intro hless
  have h2 := hfew hless
  refine ⟨h2.1, ?_⟩
  have hidx : testCount (qaLoopAux name outcomes maxIter 0 maxIter).trace - 1 =
      0 + testCount (qaLoopAux name outcomes maxIter 0 maxIter).trace - 1 := by omega
  rw [hidx]
  exact h2.2

/-- Witness for C2 at a concrete input: baseline path `/baseline`, all tests
failing, budget 3. -/
theorem c2_qa_loop_terminates_within_budget_witness :
    pyTruthyStr (some "/baseline") = true ∧ 1 ≤ 3 ∧
    (((run_async_impl "qa" (some "/baseline") (fun _ => false) 3).events =
        [successEvent "qa"] ∨
      (run_async_impl "qa" (some "/baseline") (fun _ => false) 3).events =
        [failedEvent "qa"]) ∧
    testCount (run_async_impl "qa" (some "/baseline") (fun _ => false) 3).trace ≤ 3 ∧
    (testCount (run_async_impl "qa" (some "/baseline") (fun _ => false) 3).trace < 3 →
      (run_async_impl "qa" (some "/baseline") (fun _ => false) 3).events =
        [successEvent "qa"] ∧
      (fun _ => false : Nat → Bool)
        (testCount (run_async_impl "qa" (some "/baseline") (fun _ => false) 3).trace - 1) =
        true)) :=
  ⟨rfl, by omega,
    c2_qa_loop_terminates_within_budget "qa" (some "/baseline") (fun _ => false) 3 rfl
      (by omega)⟩

/-- C3 (confirmed): with budget 3 and the test executor failing on all three
attempts, the QA loop ends with the FAILED terminal event, records 3 failing
test results (the history), performs exactly 3 test invocations (no 4th), and
performs exactly 2 remediation (generation) calls — the full call trace shows
no generation call after the final failed test. -/
theorem c3_qa_all_failed_scenario :
    run_async_impl "qa" (some "/baseline") (fun _ => false) 3 =
      ⟨[failedEvent "qa"],
        [.test false, .remediate, .test false, .remediate, .test false], some 2⟩ ∧
    testCount
      (run_async_impl "qa" (some "/baseline") (fun _ => false) 3).trace = 3 ∧
    historyCount
      (run_async_impl "qa" (some "/baseline") (fun _ => false) 3).trace = 3 ∧
    remediationCount
      (run_async_impl "qa" (some "/baseline") (fun _ => false) 3).trace = 2 := by
  refine ⟨?_, rfl, rfl, rfl⟩
  rfl

/-- Amended C8: with budget 3 and test outcomes FAILED, FAILED, PASSED, the QA
loop ends with the success event at loop iteration 2 (0-based), having recorded
2 failing results (history) over 3 test invocations with 2 generation calls;
however the terminal event content consists only of the fixed `status` and
`message` fields — it does not carry the iteration count. -/
theorem c8_scenario_a_amended :
    run_async_impl "qa" (some "/baseline") (fun i => i == 2) 3 =
      ⟨[successEvent "qa"],
        [.test false, .remediate, .test false, .remediate, .test true], some 2⟩ ∧
    historyCount
      (run_async_impl "qa" (some "/baseline") (fun i => i == 2) 3).trace = 2 ∧
    testCount
      (run_async_impl "qa" (some "/baseline") (fun i => i == 2) 3).trace = 3 ∧
    (successEvent "qa").content =
      [("status", "success"), ("message", "All tests passed!")] := by
  refine ⟨?_, rfl, rfl, rfl⟩
  rfl

/-- Counterexample for C8 as stated: the terminal report of scenario A (three
attempts consumed, exit at iteration 2) is identical to the terminal report of
a run that passes on its first attempt (exit at iteration 0), so the terminal
report cannot carry the iteration count actually consumed. -/
theorem c8_counterexample :
    (run_async_impl "qa" (some "/baseline") (fun i => i == 2) 3).events =
      (run_async_impl "qa" (some "/baseline") (fun _ => true) 3).events ∧
    (run_async_impl "qa" (some "/baseline") (fun i => i == 2) 3).exitIteration =
      some 2 ∧
    (run_async_impl "qa" (some "/baseline") (fun _ => true) 3).exitIteration =
      some 0 := by
  refine ⟨?_, rfl, rfl⟩
  rfl

/-! ## The InSpec control parsers

`services/memory/tool.py` contains two parsers.

`_parse_inspec_control` (lines 106-127) reads a whole file and applies
`re.search(r"control\s+['\"]([^'\"]+)['\"]", content)` and
`re.search(r"title\s+['\"]([^'\"]+)['\"]", content)`; when the control id is
found it returns `{id, title-or-"No title found", content}`, else `None`.

`parse_inspec_controls_from_file` (lines 130-159) finds control blocks with
`re.compile(r"^(control\s*['\"].*?['\"]\s*do.*?end)$", re.MULTILINE | re.DOTALL)
.finditer(...)`, strips each block, extracts id and title with
`control\s*['\"](.*?)['\"]` and `title\s*['\"](.*?)['\"]`, and keeps the block
only when both are found.

The scanners below implement exactly these patterns over `List Char`,
including Python's leftmost-position search and the backtracking order of the
lazy quantifiers. -/

/-- Match a literal: `dropLit lit cs` returns the remainder of `cs` after the
literal `lit`, or `none` when `cs` does not start with `lit`. -/
def dropLit : List Char → List Char → Option (List Char)
  | [], cs => some cs
  | _, [] => none
  | l :: ls, c :: cs => if c = l then dropLit ls cs else none

/-- Attempt, at the current position, the pattern
`<kw>\s+['\"]([^'\"]+)['\"]` (the `_parse_inspec_control` patterns): the
keyword, at least one whitespace character, a quote, a nonempty run of
non-quote characters (newlines allowed: `[^'\"]` is a negated class), and a
closing quote.  Returns the captured group. -/
def matchKwQuotedGreedy (kw : List Char) (cs : List Char) : Option (List Char) :=
  match dropLit kw cs with
  | none => none
  | some r1 =>
      let ws := r1.takeWhile isPySpace
      if ws.length = 0 then none
      else
        match r1.drop ws.length with
        | [] => none
        | q :: rest =>
            if isQuote q then
              let body := rest.takeWhile (fun c => !isQuote c)
              if body.length = 0 then none
              else
                match rest.drop body.length with
                | [] => none
                | _ :: _ => some body
            else none

/-- The lazy capture `(.*?)['\"]` without `re.DOTALL`: the shortest run of
non-newline characters up to a quote; fails when a newline or the end of input
is reached before any quote. -/
def lazyToQuote : List Char → Option (List Char)
  | [] => none
  | c :: rest =>
      if isQuote c then some []
      else if c = '\n' then none
      else (lazyToQuote rest).map (c :: ·)

/-- Attempt, at the current position, the pattern `<kw>\s*['\"](.*?)['\"]`
(the `id_pattern` / `title_pattern` of `parse_inspec_controls_from_file`):
the keyword, any whitespace, a quote, and a lazy possibly-empty capture up to
the next quote.  Returns the captured group. -/
def matchKwQuotedLazy (kw : List Char) (cs : List Char) : Option (List Char) :=
  match dropLit kw cs with
  | none => none
  | some r1 =>
      match r1.dropWhile isPySpace with
      | [] => none
      | q :: rest => if isQuote q then lazyToQuote rest else none

/-- Python `re.search`: try the position matcher at every position, leftmost first
(including the empty position at the end of the input). -/
def reSearch {α : Type} (m : List Char → Option α) : List Char → Option α
  | [] => m []
  | c :: rest =>
      match m (c :: rest) with
      | some v => some v
      | none => reSearch m rest

/-- The lazy tail `.*?end$` of the block pattern under `re.DOTALL` and
`re.MULTILINE`: find the earliest occurrence of `end` that is followed by a
newline or the end of input, and return the consumed characters (up to and
including `end`) together with the rest of the input. -/
def scanToEndEol : List Char → Option (List Char × List Char)
  | [] => none
  | c :: rest =>
      let fallback :=
        (scanToEndEol rest).map (fun pr => (c :: pr.1, pr.2))
      match dropLit ['e', 'n', 'd'] (c :: rest) with
      | some r' =>
          match r' with
          | [] => some (['e', 'n', 'd'], [])
          | '\n' :: _ => some (['e', 'n', 'd'], r')
          | _ => fallback
      | none => fallback

/-- The continuation `\s*do.*?end$` of the block pattern, applied after a
candidate closing quote: greedy whitespace, the literal `do`, then the lazy
scan to an `end` at end-of-line.  Returns the consumed characters and the rest
of the input. -/
def contAfterCloseQuote (cs : List Char) : Option (List Char × List Char) :=
  let ws := cs.takeWhile isPySpace
  match dropLit ['d', 'o'] (cs.drop ws.length) with
  | none => none
  | some r =>
      match scanToEndEol r with
      | some (p, rest) => some (ws ++ ['d', 'o'] ++ p, rest)
      | none => none

/-- The lazy region `.*?['\"]` of the block pattern under `re.DOTALL`,
followed by the continuation: candidate closing quotes are tried left to
right; for each, the continuation `\s*do.*?end$` is attempted (itself trying
its own candidates left to right), and on its failure the quote is treated as
part of the lazy region — the backtracking order of Python's lazy
quantifiers. -/
def blockAfterQuote : List Char → Option (List Char × List Char)
  | [] => none
  | c :: rest =>
      let fallback :=
        (blockAfterQuote rest).map (fun pr => (c :: pr.1, pr.2))
      if isQuote c then
        match contAfterCloseQuote rest with
        | some (p, r) => some (c :: p, r)
        | none => fallback
      else fallback

/-- Attempt the whole block pattern `control\s*['\"].*?['\"]\s*do.*?end$` at
the current position; on success returns the matched block text and the rest
of the input. -/
def matchBlockAt (cs : List Char) : Option (List Char × List Char) :=
  match dropLit ("control".toList) cs with
  | none => none
  | some r1 =>
      let ws := r1.takeWhile isPySpace
      match r1.drop ws.length with
      | [] => none
      | q :: rest =>
          if isQuote q then
            match blockAfterQuote rest with
            | some (p, r) => some ("control".toList ++ ws ++ [q] ++ p, r)
            | none => none
          else none

/-- The call `control_pattern.finditer(file_content)`: scan the input left to right,
attempting the block pattern only at line starts (the `^` anchor under
`re.MULTILINE`); matches are non-overlapping, scanning resumes after each
match.  `fuel` bounds the number of scanning steps (each step consumes at
least one character). -/
def finditerBlocks : Nat → Bool → List Char → List (List Char)
  | 0, _, _ => []
  | _ + 1, _, [] => []
  | fuel + 1, lineStart, c :: rest =>
      if lineStart then
        match matchBlockAt (c :: rest) with
        | some (blk, r) => blk :: finditerBlocks fuel false r
        | none => finditerBlocks fuel (c = '\n') rest
      else
        finditerBlocks fuel (c = '\n') rest

/-- All matches of the control-block pattern in document order. -/
def controlBlocks (cs : List Char) : List (List Char) :=
  finditerBlocks (cs.length + 1) true cs

/-- A parsed control: `{id, description, code}` as built by
`parse_inspec_controls_from_file`, or `{id, title, content}` as built by
`_parse_inspec_control`. -/
structure InspecControl where
  id : List Char
  description : List Char
  code : List Char
  deriving DecidableEq, Repr

/-- The loop body of `parse_inspec_controls_from_file`: for each matched
block, strip it, search for the control id and the title inside it, and keep
it only when both are found. -/
def parseBlocksLoop : List (List Char) → List InspecControl
  | [] => []
  | b :: bs =>
      if ((reSearch (matchKwQuotedLazy ("control".toList)) (pyStrip b)).isSome &&
          (reSearch (matchKwQuotedLazy ("title".toList)) (pyStrip b)).isSome) = true then
        ⟨(reSearch (matchKwQuotedLazy ("control".toList)) (pyStrip b)).getD [],
          (reSearch (matchKwQuotedLazy ("title".toList)) (pyStrip b)).getD [],
          pyStrip b⟩ :: parseBlocksLoop bs
      else parseBlocksLoop bs

/-- The function `parse_inspec_controls_from_file` (lines 130-159). -/
def parse_inspec_controls_from_file (content : List Char) : List InspecControl :=
  parseBlocksLoop (controlBlocks content)

/-- The helper `_parse_inspec_control` (lines 106-127), on the file content (the file
read itself is modelled by handing the content over): searches the whole file
for the first `control\s+['\"]([^'\"]+)['\"]` and `title\s+['\"]([^'\"]+)['\"]`
matches; when the control id is found, returns it with the title (or the
placeholder `No title found`) and the full file content; otherwise `none`. -/
def parse_inspec_control (content : List Char) : Option InspecControl :=
  match reSearch (matchKwQuotedGreedy ("control".toList)) content with
  | none => none
  | some cid =>
      some ⟨cid,
        (reSearch (matchKwQuotedGreedy ("title".toList)) content).getD
          ("No title found".toList),
        content⟩

/-! ## Filesystem model

`manage_baseline_memory`'s `add` walks a directory recursively with
`os.walk` (top-down: the files of a directory, then each subdirectory in
order) and keeps files whose name ends with `.rb`; `add_to_memory` selects
files non-recursively with `Path.glob("*.rb")`, from the `controls`
subdirectory when it exists and from the baseline directory itself otherwise.
Directory listings are modelled in their listed order (the OS enumeration
order of `os.scandir`). -/

/-- A regular file: its base name and content. -/
structure PFile where
  name : String
  content : List Char
  deriving DecidableEq, Repr

/-- Python `name.endswith(".rb")` — also the meaning of the non-recursive glob
pattern `*.rb` on a file name. -/
def endsWithRb (n : String) : Bool :=
  ['b', 'r', '.'].isPrefixOf n.toList.reverse

/-- A directory: its regular files and its named subdirectories. -/
inductive DirTree where
  | node (files : List PFile) (subdirs : List (String × DirTree))

/-- The regular files directly inside a directory. -/
def DirTree.files : DirTree → List PFile
  | .node fs _ => fs

/-- The named subdirectories directly inside a directory. -/
def DirTree.subdirs : DirTree → List (String × DirTree)
  | .node _ sds => sds

mutual

/-- Python `os.walk` (top-down): all files in the tree, the current directory's files
first, then each subdirectory recursively, in listed order. -/
def DirTree.walkFiles : DirTree → List PFile
  | .node fs sds => fs ++ walkFilesList sds

/-- Helper for `DirTree.walkFiles` over the subdirectory list. -/
def walkFilesList : List (String × DirTree) → List PFile
  | [] => []
  | (_, t) :: rest => t.walkFiles ++ walkFilesList rest

end

/-! ## ChromaDB collection model

The store is a ChromaDB collection: an ordered list of records, each with a
string `id`, a `document`, and a `metadata` dict.  `Collection.add` follows
the documented duplicate-id behaviour of the embedded client: a record whose
id already exists in the collection is not inserted again (a warning is
logged and the existing record is left unchanged); new records are appended in
order.  `Collection.query` returns up to `n_results` stored records ordered by
embedding similarity to the query text; the similarity ordering is an external
capability of the embedding model and is abstracted as a ranking function
`rank : String → List ChromaEntry → List Nat` producing indices into the
entry list (most similar first); on an empty collection the query returns no
results and no error. -/

/-- One record of a ChromaDB collection. -/
structure ChromaEntry where
  id : String
  document : List Char
  metadata : List (String × String)
  deriving DecidableEq, Repr

/-- A ChromaDB collection: its records in insertion order. -/
structure ChromaCollection where
  entries : List ChromaEntry
  deriving DecidableEq, Repr

/-- Whether the collection already holds a record with the given id. -/
def chromaHasId (c : ChromaCollection) (i : String) : Bool :=
  c.entries.any (fun e => e.id = i)

/-- ChromaDB `Collection.add`: insert the given records in order, skipping any whose id
is already present (documented duplicate-id behaviour; there is no overwrite —
that would be `Collection.upsert`, which the source does not use). -/
def chromaAdd : ChromaCollection → List ChromaEntry → ChromaCollection
  | c, [] => c
  | c, e :: es =>
      chromaAdd (if chromaHasId c e.id then c else ⟨c.entries ++ [e]⟩) es

/-- ChromaDB `Collection.query`: up to `k` stored records in similarity order for the
query text `qt`, under the abstract ranking `rank`. -/
def chromaQueryEntries (c : ChromaCollection)
    (rank : String → List ChromaEntry → List Nat) (qt : String) (k : Nat) :
    List ChromaEntry :=
  ((rank qt c.entries).filterMap (fun i => c.entries.get? i)).take k

/-! ## The memory-store operations -/

/-- The dict returned by `manage_baseline_memory`: a `status`, an optional
`message`, and (for queries) an optional `results` list of code documents. -/
structure MBMResult where
  status : String
  message : Option String
  results : Option (List (List Char))
  deriving DecidableEq, Repr

/-- The records committed by `manage_baseline_memory`'s `add` action for a
baseline directory: one per `.rb` file (recursively walked) that
`_parse_inspec_control` parses, with the full file content as document,
`{"source": baseline_path, "control_id": id}` as metadata, and the composite
id `f"{baseline_path}:{control_id}:{file}"` (note: the file's base name is
part of the id). -/
def manageAddEntries (bp : String) (tree : DirTree) : List ChromaEntry :=
  ((tree.walkFiles).filter (fun f => endsWithRb f.name)).filterMap
    (fun f =>
      (parse_inspec_control f.content).map (fun pc =>
        { id := bp ++ ":" ++ String.mk pc.id ++ ":" ++ f.name
          document := pc.code
          metadata := [("source", bp), ("control_id", String.mk pc.id)] }))

/-- The function `manage_baseline_memory` (lines 162-240).  The filesystem is modelled as
an association of existing directory paths to their trees (`os.path.isdir`
succeeds exactly on listed paths); the mutable collection is threaded through
explicitly (`none` models an unavailable collection). -/
def manage_baseline_memory (fs : List (String × DirTree))
    (rank : String → List ChromaEntry → List Nat)
    (store : Option ChromaCollection) (action : String)
    (baseline_path : Option String) (query_text : Option String) :
    MBMResult × Option ChromaCollection :=
  match store with
  | none =>
      (⟨"error", some "ChromaDB examples collection is not available.", none⟩, none)
  | some col =>
      if action = "add" then
        if pyTruthyStr baseline_path = false then
          (⟨"error",
            some "A valid directory path must be provided for the 'add' action.",
            none⟩, some col)
        else
          match fs.lookup (baseline_path.getD "") with
          | none =>
              (⟨"error",
                some "A valid directory path must be provided for the 'add' action.",
                none⟩, some col)
          | some tree =>
              let es := manageAddEntries (baseline_path.getD "") tree
              if es.isEmpty then
                (⟨"warning",
                  some "No .rb control files found in the specified path.",
                  none⟩, some col)
              else
                (⟨"success",
                  some ("Added " ++ toString es.length ++
                    " controls to memory from " ++ baseline_path.getD "" ++ "."),
                  none⟩, some (chromaAdd col es))
      else if action = "query" then
        if pyTruthyStr query_text = false then
          (⟨"error", some "Query text must be provided for the 'query' action.",
            none⟩, some col)
        else
          (⟨"success", none,
            some ((chromaQueryEntries col rank (query_text.getD "") 5).map
              (·.document))⟩, some col)
      else
        (⟨"error",
          some ("Invalid action '" ++ action ++ "'. Must be 'add' or 'query'."),
          none⟩, some col)

/-- The dict (JSON) returned by `add_to_memory`. -/
structure ATMResult where
  status : String
  message : Option String
  controls_added : Option Nat
  deriving DecidableEq, Repr

/-- The file-selection rule of `add_to_memory` (lines 277-285): the `.rb`
files directly inside the `controls` subdirectory when it exists, otherwise
the `.rb` files directly inside the baseline directory itself; in neither
case are nested directories scanned. -/
def add_to_memory_targets (t : DirTree) : List PFile :=
  match t.subdirs.lookup "controls" with
  | some cd => cd.files.filter (fun f => endsWithRb f.name)
  | none => t.files.filter (fun f => endsWithRb f.name)

/-- The function `add_to_memory` (lines 260-322), on the resolved baseline directory tree
(`baseline_path` is kept for the failure message).  The collection records one
entry per parsed control block: the block's title as document, the control id
as record id, and the block code in the metadata. -/
def add_to_memory (store : Option ChromaCollection) (baseline_path : String)
    (t : DirTree) : ATMResult × Option ChromaCollection :=
  match store with
  | none => (⟨"failure", some "ChromaDB collection is not available.", none⟩, none)
  | some col =>
      let target_files := add_to_memory_targets t
      if target_files.isEmpty then
        (⟨"failure", some ("No .rb files found in " ++ baseline_path), none⟩,
          some col)
      else
        let all_controls :=
          (target_files.map (fun f => parse_inspec_controls_from_file f.content)).flatten
        if all_controls.isEmpty then
          (⟨"success", some "No controls found to add.", none⟩, some col)
        else
          (⟨"success", none, some all_controls.length⟩,
            some (chromaAdd col (all_controls.map (fun c =>
              ⟨String.mk c.id, c.description, [("code", String.mk c.code)]⟩))))

/-- The dict (JSON) returned by `query_memory`: on success, the `results` list
holds the metadata dicts of the retrieved records. -/
structure QMResult where
  status : String
  message : Option String
  results : Option (List (List (String × String)))
  deriving DecidableEq, Repr

/-- The function `query_memory` (lines 325-361). -/
def query_memory (store : Option ChromaCollection)
    (rank : String → List ChromaEntry → List Nat)
    (control_description : String) (n_results : Nat) : QMResult :=
  match store with
  | none => ⟨"failure", some "ChromaDB collection is not available.", none⟩
  | some col =>
      ⟨"success", none,
        some ((chromaQueryEntries col rank control_description n_results).map
          (·.metadata))⟩

/-! ## Idempotency of ingestion -/

theorem chromaHasId_append (c : ChromaCollection) (e : ChromaEntry) (i : String)
    (h : chromaHasId c i = true) :
    chromaHasId ⟨c.entries ++ [e]⟩ i = true := by
  simp only [chromaHasId, List.any_append] at h ⊢
  simp [h]

theorem chromaHasId_add_mono (es : List ChromaEntry) :
    ∀ (c : ChromaCollection) (i : String), chromaHasId c i = true →
      chromaHasId (chromaAdd c es) i = true := by
  induction es with
  | nil => intro c i h; exact h
  | cons e es ih =>
      intro c i h
      simp only [chromaAdd]
      apply ih
      by_cases he : chromaHasId c e.id = true
      · simp [he, h]
      · simp only [he, if_neg, Bool.false_eq_true, not_false_iff, if_false]
        exact chromaHasId_append c e i h

theorem chromaHasId_add_mem (es : List ChromaEntry) :
    ∀ (c : ChromaCollection) (e : ChromaEntry), e ∈ es →
      chromaHasId (chromaAdd c es) e.id = true := by
  induction es with
  | nil => intro c e h; cases h
  | cons e0 es ih =>
      intro c e h
      rcases List.mem_cons.mp h with rfl | h2
      · simp only [chromaAdd]
        apply chromaHasId_add_mono
        by_cases he : chromaHasId c e.id = true
        · simp [he]
        · simp only [he, Bool.false_eq_true, not_false_iff, if_false]
          simp [chromaHasId, List.any_append]
      · simp only [chromaAdd]
        exact ih _ _ h2

theorem chromaAdd_of_all_present :
    ∀ (es : List ChromaEntry) (c : ChromaCollection),
      (∀ e ∈ es, chromaHasId c e.id = true) → chromaAdd c es = c := by
  intro es
  induction es with
  | nil => intro c _; rfl
  | cons e es ih =>
      intro c h
      simp only [chromaAdd, h e (List.mem_cons_self e es), if_true]
      exact ih c (fun x hx => h x (List.mem_cons_of_mem _ hx))

/-- Adding the same batch of records twice is the same as adding it once:
after the first `add`, every id of the batch is present, so the second `add`
skips every record. -/
theorem chromaAdd_idem (c : ChromaCollection) (es : List ChromaEntry) :
    chromaAdd (chromaAdd c es) es = chromaAdd c es :=
  chromaAdd_of_all_present es _ (fun e he => chromaHasId_add_mem es c e he)

/-- Amended C4: ingesting the same baseline location twice (through either
ingestion entry point) leaves the store exactly as after ingesting it once —
hence with the same number of entries — because the generated record ids are a
deterministic function of the location and `Collection.add` skips records
whose id already exists.  (The committed key is *not* the composite
`(source, control_id)` and content is first-write-wins, not last-write-wins;
see the counterexample.) -/
theorem c4_ingest_idempotent_amended (fs : List (String × DirTree))
    (rank : String → List ChromaEntry → List Nat)
    (store : Option ChromaCollection) (bp qt : Option String)
    (bp2 : String) (t : DirTree) :
    (manage_baseline_memory fs rank
        (manage_baseline_memory fs rank store "add" bp qt).2 "add" bp qt).2 =
      (manage_baseline_memory fs rank store "add" bp qt).2 ∧
    (add_to_memory (add_to_memory store bp2 t).2 bp2 t).2 =
      (add_to_memory store bp2 t).2 := by
  constructor
  · cases store with
    | none => rfl
    | some col =>
        simp only [manage_baseline_memory, if_pos rfl]
        by_cases hbp : pyTruthyStr bp = false
        · simp [hbp]
        · simp only [hbp, if_false]
          cases hlk : fs.lookup (bp.getD "") with
          | none => simp
          | some tree =>
              by_cases hes : (manageAddEntries (bp.getD "") tree).isEmpty = true
              · simp [hes]
              · simp only [hes, Bool.false_eq_true, if_false, hlk]
                simp [hes, chromaAdd_idem]
  · cases store with
    | none => rfl
    | some col =>
        simp only [add_to_memory]
        by_cases htf : (add_to_memory_targets t).isEmpty = true
        · simp [htf]
        · simp only [htf, Bool.false_eq_true, if_false]
          by_cases hac : (((add_to_memory_targets t).map
              (fun f => parse_inspec_controls_from_file f.content)).flatten).isEmpty = true
          · simp [hac]
          · simp [hac, htf, chromaAdd_idem]

/-- A baseline directory holding two files that declare the same control id
`V-1` (with different titles/content). -/
def c4FileA : PFile := ⟨"a.rb", "control 'V-1' do\n  title 'A'\nend\n".toList⟩

/-- Second file of the counterexample baseline, same control id. -/
def c4FileB : PFile := ⟨"b.rb", "control 'V-1' do\n  title 'B'\nend\n".toList⟩

/-- The same file name as `c4FileA` with changed content (an edited control). -/
def c4FileA2 : PFile := ⟨"a.rb", "control 'V-1' do\n  title 'A revised'\nend\n".toList⟩

/-- Filesystem for the first ingestion of `/baseline`. -/
def c4Fs : List (String × DirTree) := [("/baseline", .node [c4FileA, c4FileB] [])]

/-- The same location after `a.rb` was edited. -/
def c4Fs2 : List (String × DirTree) := [("/baseline", .node [c4FileA2, c4FileB] [])]

/-- A fixed ranking (unused by `add`). -/
def c4Rank : String → List ChromaEntry → List Nat := fun _ _ => []

/-- The store after ingesting `/baseline` once into an empty collection. -/
def c4Store1 : Option ChromaCollection :=
  (manage_baseline_memory c4Fs c4Rank (some ⟨[]⟩) "add" (some "/baseline") none).2

/-! ## The Control Parser extracts exactly the well-formed blocks -/

/-- A (stripped) block is well formed when both the control id and the title
patterns match inside it. -/
def wellFormedBlock (b : List Char) : Bool :=
  (reSearch (matchKwQuotedLazy ("control".toList)) b).isSome &&
  (reSearch (matchKwQuotedLazy ("title".toList)) b).isSome

/-- The `{id, description, code}` triple built from a well-formed block. -/
def blockControl (b : List Char) : InspecControl :=
  ⟨(reSearch (matchKwQuotedLazy ("control".toList)) b).getD [],
    (reSearch (matchKwQuotedLazy ("title".toList)) b).getD [], b⟩

theorem parseBlocksLoop_eq (bs : List (List Char)) :
    parseBlocksLoop bs =
      ((bs.map pyStrip).filter wellFormedBlock).map blockControl := by
  induction bs with
  | nil => rfl
  | cons b bs ih =>
      by_cases h : wellFormedBlock (pyStrip b) = true
      · have h' := h
        unfold wellFormedBlock at h'
        simp only [parseBlocksLoop, List.map_cons, List.filter_cons, h, h', if_true,
          blockControl, ih]
      · have h' := h
        unfold wellFormedBlock at h'
        simp only [parseBlocksLoop, List.map_cons, List.filter_cons, if_neg h, if_neg h', ih]

/-- One `.rb` file whose content holds two well-formed control blocks (`V-1`,
`V-3`) and one malformed block (`V-2`, missing its title). -/
def c5File : PFile :=
  ⟨"profile.rb",
    ("control 'V-1' do\n  title 'First control'\n  describe command('ls') do\n  end\nend\n" ++
     "control 'V-2' do\n  describe command('ls') do\n  end\nend\n" ++
     "control 'V-3' do\n  title 'Third control'\n  describe command('ls') do\n  end\nend\n").toList⟩

/-- A baseline directory holding `c5File`. -/
def c5Tree : DirTree := .node [c5File] []

/-- C5 (confirmed): the block parser is total (never reports an error) and
extracts exactly the well-formed blocks — those in which both the control-id
and the title patterns match — silently skipping the rest; ingesting a
baseline directory with two well-formed control blocks and one block missing
its title through `add_to_memory` reports success with an added count of 2. -/
theorem c5_parser_extracts_wellformed_blocks :
    (∀ content, parse_inspec_controls_from_file content =
        (((controlBlocks content).map pyStrip).filter wellFormedBlock).map
          blockControl) ∧
    (add_to_memory (some ⟨[]⟩) "/baseline" c5Tree).1 = ⟨"success", none, some 2⟩ ∧
    ((parse_inspec_controls_from_file c5File.content).map (fun c => String.mk c.id) =
      ["V-1", "V-3"]) := by
  refine ⟨fun content => parseBlocksLoop_eq (controlBlocks content), by decide, by decide⟩

/-- Counterexample to C4 as stated: after a single ingest of a location whose
two files declare the same control id, the store holds two distinct entries
with the *same* `(source, control_id)` metadata — the committed key is
`baseline_path:control_id:filename`, not the composite `(source, control_id)`
— and re-ingesting the same location after a file's content changed leaves the
store unchanged (first-write-wins, not last-write-wins). -/
theorem c4_counterexample :
    (c4Store1.map (fun col => col.entries.map (fun e => e.metadata)) =
      some [[("source", "/baseline"), ("control_id", "V-1")],
            [("source", "/baseline"), ("control_id", "V-1")]]) ∧
    (c4Store1.map (fun col => col.entries.map (fun e => e.id)) =
      some ["/baseline:V-1:a.rb", "/baseline:V-1:b.rb"]) ∧
    (manage_baseline_memory c4Fs2 c4Rank c4Store1 "add" (some "/baseline") none).2 =
      c4Store1 ∧
    c4FileA2.content ≠ c4FileA.content := by
  refine ⟨by decide, by decide, by decide, by decide⟩

/-! ## Empty-source behaviour of ingestion -/

/-- An existing but empty baseline directory. -/
def c6Tree : DirTree := .node [] []

/-- Filesystem in which `/empty` exists and holds nothing. -/
def c6Fs : List (String × DirTree) := [("/empty", c6Tree)]

/-- A directory whose only `.rb` file contains no parsable control block. -/
def c6Tree2 : DirTree := .node [⟨"notes.rb", "# no control blocks here\n".toList⟩] []

/-- Counterexample to C6 as stated: on a baseline location in which no
parsable controls are found, ingestion does *not* complete as a zero-count
success — `manage_baseline_memory`'s `add` returns status `warning` with no
count, and `add_to_memory` returns status `failure` when the location has no
`.rb` files at all. -/
theorem c6_counterexample :
    (manage_baseline_memory c6Fs (fun _ _ => []) (some ⟨[]⟩) "add" (some "/empty")
        none).1 =
      ⟨"warning", some "No .rb control files found in the specified path.", none⟩ ∧
    (manage_baseline_memory c6Fs (fun _ _ => []) (some ⟨[]⟩) "add" (some "/empty")
        none).1.status ≠ "success" ∧
    (add_to_memory (some ⟨[]⟩) "/empty" c6Tree).1 =
      ⟨"failure", some "No .rb files found in /empty", none⟩ := by
  refine ⟨by decide, by decide, by decide⟩

/-- Amended C6: for every baseline location in which no parsable controls are
found, ingestion completes without an exception and without mutating the
store, but not uniformly as a zero-count success: `manage_baseline_memory`'s
`add` returns status `warning` (not `error`, not `success`);
`add_to_memory` returns status `failure` when no `.rb` files are selected, and
the zero-count success (`No controls found to add.`) only when `.rb` files
exist but none of them contains a parsable control block. -/
theorem c6_empty_source_amended :
    (∀ (fs : List (String × DirTree)) (rank : String → List ChromaEntry → List Nat)
        (col : ChromaCollection) (bp : String) (tree : DirTree) (qt : Option String),
      bp ≠ "" → fs.lookup bp = some tree → manageAddEntries bp tree = [] →
        manage_baseline_memory fs rank (some col) "add" (some bp) qt =
          (⟨"warning", some "No .rb control files found in the specified path.", none⟩,
            some col)) ∧
    (∀ (col : ChromaCollection) (bp : String) (tree : DirTree),
      add_to_memory_targets tree = [] →
        add_to_memory (some col) bp tree =
          (⟨"failure", some ("No .rb files found in " ++ bp), none⟩, some col)) ∧
    (∀ (col : ChromaCollection) (bp : String) (tree : DirTree),
      add_to_memory_targets tree ≠ [] →
      ((add_to_memory_targets tree).map
          (fun f => parse_inspec_controls_from_file f.content)).flatten = [] →
        add_to_memory (some col) bp tree =
          (⟨"success", some "No controls found to add.", none⟩, some col)) := by
  refine ⟨?_, ?_, ?_⟩
  · intro fs rank col bp tree qt hbp hlk hes
    have htr : pyTruthyStr (some bp) = true := by
      simp [pyTruthyStr, hbp]
    simp [manage_baseline_memory, htr, hlk, hes]
  · intro col bp tree htf
    simp [add_to_memory, htf]
  · intro col bp tree htf hac
    simp [add_to_memory, htf, hac]

/-- Witness for the amended C6 at concrete inputs: the empty directory
`/empty` (warning from `manage_baseline_memory`, failure from
`add_to_memory`), and a directory whose only `.rb` file parses to zero
controls (zero-count success from `add_to_memory`). -/
theorem c6_empty_source_amended_witness :
    ("/empty" ≠ "" ∧ c6Fs.lookup "/empty" = some c6Tree ∧
      manageAddEntries "/empty" c6Tree = [] ∧
      manage_baseline_memory c6Fs (fun _ _ => []) (some ⟨[]⟩) "add" (some "/empty")
          none =
        (⟨"warning", some "No .rb control files found in the specified path.", none⟩,
          some ⟨[]⟩)) ∧
    (add_to_memory_targets c6Tree = [] ∧
      add_to_memory (some ⟨[]⟩) "/empty" c6Tree =
        (⟨"failure", some "No .rb files found in /empty", none⟩, some ⟨[]⟩)) ∧
    (add_to_memory_targets c6Tree2 ≠ [] ∧
      ((add_to_memory_targets c6Tree2).map
          (fun f => parse_inspec_controls_from_file f.content)).flatten = [] ∧
      add_to_memory (some ⟨[]⟩) "/b2" c6Tree2 =
        (⟨"success", some "No controls found to add.", none⟩, some ⟨[]⟩)) := by
  refine ⟨⟨by decide, rfl, by decide, ?_⟩, ⟨by decide, ?_⟩, ⟨by decide, by decide, ?_⟩⟩
  · exact c6_empty_source_amended.1 c6Fs (fun _ _ => []) ⟨[]⟩ "/empty" c6Tree none
      (by decide) rfl (by decide)
  · exact c6_empty_source_amended.2.1 ⟨[]⟩ "/empty" c6Tree (by decide)
  · exact c6_empty_source_amended.2.2 ⟨[]⟩ "/b2" c6Tree2 (by decide) (by decide)

/-! ## Query on an empty store -/

theorem chromaQueryEntries_empty (rank : String → List ChromaEntry → List Nat)
    (qt : String) (k : Nat) : chromaQueryEntries ⟨[]⟩ rank qt k = [] := by
  unfold chromaQueryEntries
  have h : ∀ l : List Nat,
      l.filterMap (fun i => (([] : List ChromaEntry)).get? i) = [] := by
    intro l
    induction l with
    | nil => rfl
    | cons a l ih => simp [List.filterMap_cons, ih]
  rw [h]
  exact List.take_nil

/-- C7 (confirmed): querying the Example store when it is empty returns a
zero-result success — an empty ordered sequence, never an error — through both
`manage_baseline_memory`'s `query` action (fixed `n_results = 5`) and
`query_memory` (any `n_results`), for every query text and every similarity
ranking; the store is left unchanged. -/
theorem c7_query_empty_store (fs : List (String × DirTree))
    (rank : String → List ChromaEntry → List Nat) (qt : String) (k : Nat)
    (hqt : qt ≠ "") :
    manage_baseline_memory fs rank (some ⟨[]⟩) "query" none (some qt) =
      (⟨"success", none, some []⟩, some ⟨[]⟩) ∧
    query_memory (some ⟨[]⟩) rank qt k = ⟨"success", none, some []⟩ := by
  have htr : pyTruthyStr (some qt) = true := by
    simp [pyTruthyStr, hqt]
  constructor
  · simp [manage_baseline_memory, htr, chromaQueryEntries_empty]
  · simp [query_memory, chromaQueryEntries_empty]

/-- Witness for C7 at a concrete input. -/
theorem c7_query_empty_store_witness :
    ("vendor supported release" ≠ "") ∧
    (manage_baseline_memory [] (fun _ _ => []) (some ⟨[]⟩) "query" none
        (some "vendor supported release") =
      (⟨"success", none, some []⟩, some ⟨[]⟩) ∧
    query_memory (some ⟨[]⟩) (fun _ _ => []) "vendor supported release" 1 =
      ⟨"success", none, some []⟩) :=
  ⟨by decide,
    c7_query_empty_store [] (fun _ _ => []) "vendor supported release" 1 (by decide)⟩

/-! ## Structured error results of `manage_baseline_memory` -/

/-- C9 (confirmed): with the collection available, `manage_baseline_memory`
returns a structured error dict — status `error` with a message — and leaves
the store untouched, for (a) any action other than `add` and `query`, (b) an
`add` whose baseline path is falsy or not an existing directory, and (c) a
`query` with falsy query text. -/
theorem c9_manage_invalid_inputs (fs : List (String × DirTree))
    (rank : String → List ChromaEntry → List Nat) (col : ChromaCollection)
    (action : String) (bp qt : Option String) :
    (action ≠ "add" → action ≠ "query" →
      manage_baseline_memory fs rank (some col) action bp qt =
        (⟨"error",
          some ("Invalid action '" ++ action ++ "'. Must be 'add' or 'query'."),
          none⟩, some col)) ∧
    (pyTruthyStr bp = false ∨ fs.lookup (bp.getD "") = none →
      manage_baseline_memory fs rank (some col) "add" bp qt =
        (⟨"error",
          some "A valid directory path must be provided for the 'add' action.",
          none⟩, some col)) ∧
    (pyTruthyStr qt = false →
      manage_baseline_memory fs rank (some col) "query" bp qt =
        (⟨"error", some "Query text must be provided for the 'query' action.",
          none⟩, some col)) := by
  refine ⟨?_, ?_, ?_⟩
  · intro h1 h2
    simp [manage_baseline_memory, h1, h2]
  · intro h
    rcases h with h | h
    · simp [manage_baseline_memory, h]
    · by_cases hbp : pyTruthyStr bp = false
      · simp [manage_baseline_memory, hbp]
      · have htr : pyTruthyStr bp = true := by
          revert hbp; cases pyTruthyStr bp <;> simp
        simp [manage_baseline_memory, htr, h]
  · intro h
    simp [manage_baseline_memory, h]

/-- Witness for C9 at concrete inputs: action `delete`, an `add` with no
path, and a `query` with no text, all against an empty collection. -/
theorem c9_manage_invalid_inputs_witness :
    (("delete" : String) ≠ "add" ∧ ("delete" : String) ≠ "query" ∧
      manage_baseline_memory [] (fun _ _ => []) (some ⟨[]⟩) "delete" none none =
        (⟨"error",
          some ("Invalid action '" ++ "delete" ++ "'. Must be 'add' or 'query'."),
          none⟩, some ⟨[]⟩)) ∧
    (pyTruthyStr none = false ∧
      manage_baseline_memory [] (fun _ _ => []) (some ⟨[]⟩) "add" none none =
        (⟨"error",
          some "A valid directory path must be provided for the 'add' action.",
          none⟩, some ⟨[]⟩)) ∧
    (pyTruthyStr none = false ∧
      manage_baseline_memory [] (fun _ _ => []) (some ⟨[]⟩) "query" none none =
        (⟨"error", some "Query text must be provided for the 'query' action.",
          none⟩, some ⟨[]⟩)) := by
  refine ⟨⟨by decide, by decide, ?_⟩, ⟨by decide, ?_⟩, ⟨by decide, ?_⟩⟩
  · exact (c9_manage_invalid_inputs [] (fun _ _ => []) ⟨[]⟩ "delete" none none).1
      (by decide) (by decide)
  · exact (c9_manage_invalid_inputs [] (fun _ _ => []) ⟨[]⟩ "add" none none).2.1
      (Or.inl (by decide))
  · exact (c9_manage_invalid_inputs [] (fun _ _ => []) ⟨[]⟩ "query" none none).2.2
      (by decide)

/-! ## File selection of `add_to_memory` -/

/-- The directory listing `add_to_memory` globs over: the `controls`
subdirectory when present, otherwise the baseline directory itself. -/
def add_to_memory_sourceDir (t : DirTree) : List PFile :=
  match t.subdirs.lookup "controls" with
  | some cd => cd.files
  | none => t.files

/-- A well-formed control in file `top.rb`. -/
def c10ControlA : List Char := "control 'A-1' do\n  title 'Alpha'\nend\n".toList

/-- A well-formed control in a nested file. -/
def c10ControlB : List Char := "control 'B-1' do\n  title 'Beta'\nend\n".toList

/-- A well-formed control nested below the `controls` directory. -/
def c10ControlC : List Char := "control 'C-1' do\n  title 'Gamma'\nend\n".toList

/-- A baseline without a `controls` subdirectory: one top-level `.rb` file and
one `.rb` file inside a nested subdirectory. -/
def c10TreeFlat : DirTree :=
  .node [⟨"top.rb", c10ControlA⟩] [("nested", .node [⟨"deep.rb", c10ControlB⟩] [])]

/-- Filesystem mapping `/p` to `c10TreeFlat`. -/
def c10Fs : List (String × DirTree) := [("/p", c10TreeFlat)]

/-- A baseline with a `controls` subdirectory that itself has a nested
subdirectory with a further `.rb` file, plus a stray top-level `.rb` file. -/
def c10TreeCtl : DirTree :=
  .node [⟨"top.rb", c10ControlA⟩]
    [("controls", .node [⟨"c.rb", c10ControlB⟩]
      [("sub", .node [⟨"deeper.rb", c10ControlC⟩] [])])]

/-- C10 (confirmed): `add_to_memory` parses exactly the `.rb` files directly
inside the `controls` subdirectory when it exists and directly inside the
baseline directory otherwise (first conjunct: membership characterization);
it never scans nested directories — on a baseline with one top-level and one
nested control it adds 1 control where `manage_baseline_memory`'s recursive
`add` walks both and adds 2, and with a `controls` subdirectory it adds only
that directory's direct `.rb` file, ignoring both the top-level file and the
deeper nested one. -/
theorem c10_add_to_memory_file_selection :
    (∀ (t : DirTree) (f : PFile),
      f ∈ add_to_memory_targets t ↔
        (endsWithRb f.name = true ∧ f ∈ add_to_memory_sourceDir t)) ∧
    (add_to_memory (some ⟨[]⟩) "/p" c10TreeFlat).1.controls_added = some 1 ∧
    (manage_baseline_memory c10Fs (fun _ _ => []) (some ⟨[]⟩) "add" (some "/p")
        none).1.message = some "Added 2 controls to memory from /p." ∧
    (add_to_memory (some ⟨[]⟩) "/q" c10TreeCtl).1.controls_added = some 1 := by
  refine ⟨?_, by decide, by decide, by decide⟩
  intro t f
  unfold add_to_memory_targets add_to_memory_sourceDir
  cases t.subdirs.lookup "controls" <;> simp [List.mem_filter, and_comm]

end SafStig
